import Mathlib

/-!
Verification of the batched answer-resolution pipeline of the AutoFill-Forms
repository (`src/gemini_client.py`), against its natural-language specification.

The Python module is shallowly embedded:

* `MCQ` mirrors the dataclass in `src/models.py`.
* `_coerce_api_key` / `_get_api_keys` mirror the credential parsing, with the
  value of the `GEMINI_API_KEYS` environment variable passed as an argument
  (`os.getenv` with default `""`).
* The external world (the `google.genai` client) is modelled by a `Behaviour`
  oracle: for each outer round it says whether `genai.Client(...)` raises, and
  for each (round, model position) what the single `generate_content` call at
  that point does, abstracted to the four outcomes the code distinguishes:
  an empty / part-less response, a JSON decode failure, a parsed object whose
  `"answers"` list has been extracted (each item reduced to its two
  int-coerced fields, `none` marking a field whose lookup or `int(...)`
  coercion raises), or an exception carrying its message string.
* `ask_gemini_batch` returns `Except String (List (Option Int) × Nat × Nat)`:
  `.error msg` models a Python exception propagating out of the function,
  `.ok (answers, cursor, calls)` models a normal return, together with the
  final value of the global `current_api_key_idx` and the number of
  `generate_content` network calls issued.  The initial cursor is an argument.
-/

/-- Mirrors the `MCQ` dataclass of `src/models.py`. -/
structure MCQ where
  kind : String
  question_text : String
  options : List String
deriving Repr, DecidableEq

/-- ASCII whitespace stripped by Python's argument-less `str.strip()`. -/
def isPyWs (c : Char) : Bool :=
  c = ' ' || c = '\t' || c = '\n' || c = '\r' || c = '\x0b' || c = '\x0c'

/-- Python `s.strip(chars)`: drop characters satisfying `p` from both ends. -/
def pyStrip (p : Char → Bool) (s : String) : String :=
  String.mk (((s.toList.dropWhile p).reverse.dropWhile p).reverse)

/-- Mirrors `_coerce_api_key` (`src/gemini_client.py` lines 14-17):
`if not val: return None; return val.strip().strip('"').strip("'")`.
The entries produced by `str.split` are strings, so the falsy test on the
argument is the emptiness test. -/
def _coerce_api_key (val : String) : Option String :=
  if val = "" then none
  else some (pyStrip (fun c => c = '\'')
              (pyStrip (fun c => c = '"')
                (pyStrip isPyWs val)))

/-- Python truthiness of an `Optional[str]`: `None` and `""` are falsy. -/
def pyTruthy : Option String → Bool
  | none => false
  | some s => s ≠ ""

/-- Python `s.split(",")` on the character list: split at every comma,
keeping empty fields, so the empty string yields one empty field. -/
def splitComma : List Char → List (List Char)
  | [] => [[]]
  | c :: rest =>
    match splitComma rest with
    | [] => [[c]]
    | h :: t => if c = ',' then [] :: h :: t else (c :: h) :: t

/-- Python `s.split(",")`. -/
def pySplitComma (s : String) : List String :=
  (splitComma s.toList).map String.mk

/-- Mirrors `_get_api_keys` (`src/gemini_client.py` lines 20-24), with the
value of the `GEMINI_API_KEYS` environment variable as the argument:
split on `","`, coerce each entry, keep the truthy results. -/
def _get_api_keys (geminiApiKeysEnv : String) : List String :=
  let raw_keys := pySplitComma geminiApiKeysEnv
  let keys := raw_keys.map _coerce_api_key
  keys.filterMap (fun k => if pyTruthy k then k else none)

/-- One item of the parsed `"answers"` list: the two fields after the
`int(item.get("q"))` / `int(item.get("answer"))` coercions; `none` marks a
field whose lookup or coercion raises (the inner `except` then skips the
item). -/
structure RawItem where
  q : Option Int
  answer : Option Int
deriving Repr, DecidableEq

/-- Mirrors one iteration of the answer loop (`src/gemini_client.py` lines
73-80): coerce the two fields, compute the 0-based question index, and write
the slot only when both bounds checks pass; any failure skips the item. -/
def applyItem (questions : List MCQ) (answers : List (Option Int))
    (item : RawItem) : List (Option Int) :=
  match item.q, item.answer with
  | some qv, some ans =>
    let q_idx : Int := qv - 1
    if 0 ≤ q_idx ∧ q_idx < (questions.length : Int) ∧ 1 ≤ ans ∧
        ans ≤ (((questions.getD q_idx.toNat ⟨"", "", []⟩).options.length : Nat) : Int) then
      answers.set q_idx.toNat (some ans)
    else answers
  | _, _ => answers

/-- Mirrors `src/gemini_client.py` lines 72-80: start from an all-`None`
array of the batch's length and fold the response's items over it in order. -/
def parseAnswers (questions : List MCQ) (items : List RawItem) : List (Option Int) :=
  items.foldl (applyItem questions) (List.replicate questions.length none)

/-- `pat in s` on Python strings: `pat` occurs as a contiguous substring. -/
def strHasSub (s pat : String) : Bool :=
  (List.range (s.length + 1)).any
    (fun i => ((s.toList.drop i).take pat.length) == pat.toList)

/-- Mirrors the quota test of `src/gemini_client.py` line 85:
`"RESOURCE_EXHAUSTED" in str(e) or "429" in str(e)`. -/
def isQuotaError (msg : String) : Bool :=
  strHasSub msg "RESOURCE_EXHAUSTED" || strHasSub msg "429"

/-- What one `generate_content` call at a given (round, model) point does, as
the code distinguishes the cases: `emptyResponse` is the no-candidates /
no-parts branch (line 62), `decodeError` the `json.JSONDecodeError` branch
(line 69), `parsed items` a successful parse with the extracted `"answers"`
list (`data.get("answers", [])`, a missing key giving `parsed []`), and
`raised msg` an exception reaching the outer `except` with message `msg`. -/
inductive Outcome where
  | emptyResponse : Outcome
  | decodeError : Outcome
  | parsed : List RawItem → Outcome
  | raised : String → Outcome
deriving Repr, DecidableEq

/-- The external world: `clientError r` tells whether `genai.Client(...)` in
round `r` raises (with which message), `respond r m` what the request for the
model at position `m` of round `r` does. -/
structure Behaviour where
  clientError : Nat → Option String
  respond : Nat → Nat → Outcome

/-- The fixed priority-ordered model list (`src/gemini_client.py` line 35). -/
def geminiModels : List String :=
  ["gemini-2.5-flash", "gemini-2.5-flash-lite", "gemini-3-flash-preview"]

/-- Mirrors the inner `for model in models` loop of one round
(`src/gemini_client.py` lines 59-90), starting at model position `mIdx` with
the remaining model list.  Returns the accepted answer array, if any, and the
number of `generate_content` calls made: an accepted parse returns
immediately, a quota-signalling exception breaks the loop (`switch_key`),
every other outcome moves on to the next model. -/
def runModelsFrom (B : Behaviour) (questions : List MCQ) (round : Nat) :
    Nat → List String → Option (List (Option Int)) × Nat
  | _, [] => (none, 0)
  | mIdx, _ :: rest =>
    match B.respond round mIdx with
    | Outcome.emptyResponse =>
      let r := runModelsFrom B questions round (mIdx + 1) rest
      (r.1, r.2 + 1)
    | Outcome.decodeError =>
      let r := runModelsFrom B questions round (mIdx + 1) rest
      (r.1, r.2 + 1)
    | Outcome.parsed items =>
      let answers := parseAnswers questions items
      if answers.any Option.isSome then (some answers, 1)
      else
        let r := runModelsFrom B questions round (mIdx + 1) rest
        (r.1, r.2 + 1)
    | Outcome.raised msg =>
      if isQuotaError msg then (none, 1)
      else
        let r := runModelsFrom B questions round (mIdx + 1) rest
        (r.1, r.2 + 1)

/-- Mirrors the outer `for _ in range(20)` loop (`src/gemini_client.py` lines
54-95): `fuel` is the number of rounds left, `idx` the current credential
index (the code keeps `current_idx` and the global `current_api_key_idx`
equal at every point of the loop), `calls` the running network-call count.
`keys[current_idx]` with `idx` out of range raises `IndexError`; a raising
`genai.Client(...)` (line 56, outside any `try`) propagates; after a round
with no accepted response the cursor always advances by one modulo the key
count (lines 92-93). -/
def runRounds (B : Behaviour) (questions : List MCQ) (keys : List String) :
    Nat → Nat → Nat → Nat → Except String (List (Option Int) × Nat × Nat)
  | _, 0, idx, calls =>
    Except.ok (List.replicate questions.length none, idx, calls)
  | round, fuel + 1, idx, calls =>
    if idx < keys.length then
      match B.clientError round with
      | some msg => Except.error msg
      | none =>
        match runModelsFrom B questions round 0 geminiModels with
        | (some answers, n) => Except.ok (answers, idx, calls + n)
        | (none, n) =>
          runRounds B questions keys (round + 1) fuel
            ((idx + 1) % keys.length) (calls + n)
    else Except.error "IndexError: list index out of range"

/-- Mirrors `ask_gemini_batch` (`src/gemini_client.py` lines 27-97).
Arguments: the behaviour of the external service, the value of the
`GEMINI_API_KEYS` environment variable, the question batch, and the value of
the global `current_api_key_idx` at entry.  Result: `.error msg` when a
Python exception propagates, otherwise `.ok` with the returned answer array,
the final `current_api_key_idx`, and the number of network calls issued. -/
def ask_gemini_batch (B : Behaviour) (geminiApiKeysEnv : String)
    (questions : List MCQ) (current_api_key_idx : Nat) :
    Except String (List (Option Int) × Nat × Nat) :=
  let keys := _get_api_keys geminiApiKeysEnv
  if keys.isEmpty then
    Except.ok (List.replicate questions.length none, current_api_key_idx, 0)
  else
    runRounds B questions keys 0 20 current_api_key_idx 0

/-! ## Helper lemmas -/

theorem applyItem_length (questions : List MCQ) (answers : List (Option Int))
    (item : RawItem) : (applyItem questions answers item).length = answers.length := by
  unfold applyItem
  cases item.q <;> cases item.answer <;> simp only []
  split <;> simp [List.length_set]

theorem foldl_applyItem_length (questions : List MCQ) (items : List RawItem)
    (init : List (Option Int)) :
    (items.foldl (applyItem questions) init).length = init.length := by
  induction items generalizing init with
  | nil => rfl
  | cons item rest ih =>
    simp only [List.foldl_cons]
    rw [ih, applyItem_length]

theorem parseAnswers_length (questions : List MCQ) (items : List RawItem) :
    (parseAnswers questions items).length = questions.length := by
  unfold parseAnswers
  rw [foldl_applyItem_length, List.length_replicate]

/-- An answer array accepted by the model loop is the parse of some
response's item list. -/
theorem runModelsFrom_some_shape (B : Behaviour) (questions : List MCQ)
    (round : Nat) (mIdx : Nat) (ms : List String) (answers : List (Option Int)) :
    (runModelsFrom B questions round mIdx ms).1 = some answers →
    ∃ items, answers = parseAnswers questions items := by
  induction ms generalizing mIdx with
  | nil => intro h; simp [runModelsFrom] at h
  | cons m rest ih =>
    intro h
    cases hr : B.respond round mIdx with
    | emptyResponse =>
      simp only [runModelsFrom, hr] at h
      exact ih (mIdx + 1) h
    | decodeError =>
      simp only [runModelsFrom, hr] at h
      exact ih (mIdx + 1) h
    | parsed items =>
      simp only [runModelsFrom, hr] at h
      by_cases hc : (parseAnswers questions items).any Option.isSome
      · rw [if_pos hc] at h
        exact ⟨items, (Option.some.inj h).symm⟩
      · rw [if_neg hc] at h
        exact ih (mIdx + 1) h
    | raised msg =>
      simp only [runModelsFrom, hr] at h
      by_cases hq : isQuotaError msg
      · rw [if_pos hq] at h; cases h
      · rw [if_neg hq] at h
        exact ih (mIdx + 1) h

theorem runRounds_ok_shape (B : Behaviour) (questions : List MCQ) (keys : List String)
    (round fuel idx calls : Nat) (lst : List (Option Int)) (c n : Nat) :
    runRounds B questions keys round fuel idx calls = Except.ok (lst, c, n) →
    lst = List.replicate questions.length none ∨
      ∃ items, lst = parseAnswers questions items := by
  induction fuel generalizing round idx calls with
  | zero =>
    intro h
    rw [runRounds] at h
    simp only [Except.ok.injEq, Prod.mk.injEq] at h
    exact Or.inl h.1.symm
  | succ fuel ih =>
    intro h
    rw [runRounds] at h
    by_cases hk : idx < keys.length
    · rw [if_pos hk] at h
      cases hce : B.clientError round with
      | some msg => rw [hce] at h; cases h
      | none =>
        rw [hce] at h
        cases hm : runModelsFrom B questions round 0 geminiModels with
        | mk res cnt =>
          cases res with
          | some answers =>
            rw [hm] at h
            simp only [Except.ok.injEq, Prod.mk.injEq] at h
            refine Or.inr ?_
            rw [← h.1]
            exact runModelsFrom_some_shape B questions round 0 geminiModels answers
              (by rw [hm])
          | none =>
            rw [hm] at h
            exact ih (round + 1) ((idx + 1) % keys.length) (calls + cnt) h
    · rw [if_neg hk] at h; cases h

/-! ## Claims -/

/-- C1: for every input list of question records of length N, every normal
return of `ask_gemini_batch` is a list of exactly N optional integers, one
slot per input question in input order. -/
theorem ask_gemini_batch_length (B : Behaviour) (env : String) (questions : List MCQ)
    (idx0 : Nat) (lst : List (Option Int)) (c n : Nat) :
    ask_gemini_batch B env questions idx0 = Except.ok (lst, c, n) →
    lst.length = questions.length := by
  intro h
  unfold ask_gemini_batch at h
  by_cases hk : (_get_api_keys env).isEmpty
  · simp only [hk, if_true, Except.ok.injEq, Prod.mk.injEq] at h
    rw [← h.1, List.length_replicate]
  · simp only [hk, if_false] at h
    rcases runRounds_ok_shape B questions (_get_api_keys env) 0 20 idx0 0 lst c n h with
      hrep | ⟨items, hitems⟩
    · rw [hrep, List.length_replicate]
    · rw [hitems, parseAnswers_length]

/-- Witness for C1 at a concrete input: a batch of one question against a
service whose responses are always empty yields a one-slot array. -/
theorem ask_gemini_batch_length_witness :
    ([none] : List (Option Int)).length = [(⟨"radio", "Q", ["a", "b"]⟩ : MCQ)].length :=
  ask_gemini_batch_length ⟨fun _ => none, fun _ _ => Outcome.emptyResponse⟩ "k"
    [⟨"radio", "Q", ["a", "b"]⟩] 0 [none] 0 60 rfl

/-- C7: with an empty parsed credential list, `ask_gemini_batch` returns the
all-absent array of the input's length, makes no network call, and leaves the
rotation cursor unchanged. -/
theorem ask_gemini_batch_no_keys (B : Behaviour) (env : String) (questions : List MCQ)
    (idx0 : Nat) :
    _get_api_keys env = [] →
    ask_gemini_batch B env questions idx0 =
      Except.ok (List.replicate questions.length none, idx0, 0) := by
  intro h
  unfold ask_gemini_batch
  simp [h]

/-- Witness for C7: the empty environment value parses to no credentials, and
the call returns all-absent with cursor `7` intact and zero calls. -/
theorem ask_gemini_batch_no_keys_witness :
    ask_gemini_batch ⟨fun _ => none, fun _ _ => Outcome.emptyResponse⟩ ""
      [(⟨"radio", "Q", ["a", "b"]⟩ : MCQ)] 7 =
      Except.ok (List.replicate 1 none, 7, 0) :=
  ask_gemini_batch_no_keys ⟨fun _ => none, fun _ _ => Outcome.emptyResponse⟩ ""
    [⟨"radio", "Q", ["a", "b"]⟩] 7 rfl

/-- The exact write condition of `applyItem`, as a boolean: both fields
coerce and both the question index and the chosen option are in bounds. -/
def itemWrites (questions : List MCQ) (item : RawItem) : Bool :=
  match item.q, item.answer with
  | some qv, some ans =>
    decide (0 ≤ qv - 1 ∧ qv - 1 < (questions.length : Int) ∧ 1 ≤ ans ∧
      ans ≤ (((questions.getD (qv - 1).toNat ⟨"", "", []⟩).options.length : Nat) : Int))
  | _, _ => false

theorem applyItem_of_not_writes (questions : List MCQ) (answers : List (Option Int))
    (item : RawItem) (h : itemWrites questions item = false) :
    applyItem questions answers item = answers := by
  unfold applyItem
  unfold itemWrites at h
  cases hq : item.q with
  | none => simp [hq]
  | some qv =>
    cases ha : item.answer with
    | none => simp [hq, ha]
    | some ans =>
      rw [hq, ha] at h
      simp only []
      rw [if_neg (of_decide_eq_false h)]

/-- Every non-absent slot is a 1-based index into that question's options. -/
def entriesValid (questions : List MCQ) (lst : List (Option Int)) : Prop :=
  ∀ (i : Nat) (a : Int), lst[i]? = some (some a) →
    1 ≤ a ∧ ∃ mq : MCQ, questions[i]? = some mq ∧ a ≤ (mq.options.length : Int)

theorem entriesValid_replicate (questions : List MCQ) (m : Nat) :
    entriesValid questions (List.replicate m none) := by
  unfold entriesValid
  intro i a h
  rw [List.getElem?_replicate] at h
  by_cases hi : i < m
  · rw [if_pos hi] at h
    cases (Option.some.inj h)
  · rw [if_neg hi] at h
    cases h

theorem applyItem_entriesValid (questions : List MCQ) (answers : List (Option Int))
    (item : RawItem) (hlen : answers.length = questions.length)
    (hv : entriesValid questions answers) :
    entriesValid questions (applyItem questions answers item) := by
  unfold applyItem
  cases hq : item.q with
  | none => simpa using hv
  | some qv =>
    cases ha : item.answer with
    | none => simpa using hv
    | some ans =>
      simp only []
      split
      · rename_i hguard
        obtain ⟨h0, hlt, h1, hle⟩ := hguard
        unfold entriesValid
        intro i a h
        rw [List.getElem?_set] at h
        by_cases hij : (qv - 1).toNat = i
        · rw [if_pos hij] at h
          have hjq : (qv - 1).toNat < questions.length := by omega
          rw [if_pos (by rw [hlen]; exact hjq)] at h
          have haa : a = ans := by
            have := Option.some.inj h
            exact (Option.some.inj this).symm
          subst haa
          subst hij
          have hgd : questions.getD (qv - 1).toNat ⟨"", "", []⟩ =
              questions[(qv - 1).toNat] := by
            rw [List.getD_eq_getElem?_getD, List.getElem?_eq_getElem hjq]
            rfl
          rw [hgd] at hle
          exact ⟨h1, questions[(qv - 1).toNat], List.getElem?_eq_getElem hjq, hle⟩
        · rw [if_neg hij] at h
          exact hv i a h
      · exact hv

theorem parseAnswers_entriesValid (questions : List MCQ) (items : List RawItem) :
    entriesValid questions (parseAnswers questions items) := by
  unfold parseAnswers
  have main : ∀ (init : List (Option Int)), init.length = questions.length →
      entriesValid questions init →
      entriesValid questions (items.foldl (applyItem questions) init) := by
    induction items with
    | nil => intro init _ hv; exact hv
    | cons item rest ih =>
      intro init hlen hv
      simp only [List.foldl_cons]
      exact ih (applyItem questions init item)
        (by rw [applyItem_length, hlen]) (applyItem_entriesValid questions init item hlen hv)
  exact main _ (List.length_replicate _ _) (entriesValid_replicate questions _)

/-- C2: every non-absent entry of a returned array at position `i` is a
1-based in-bounds option index for question `i`; a response pair whose
question index or option number is out of bounds, or whose fields do not
coerce to integers, writes no output slot (and, as the other claims'
theorems show, never aborts the batch). -/
theorem ask_gemini_batch_entry_bounds (B : Behaviour) (env : String)
    (questions : List MCQ) (idx0 : Nat) (lst : List (Option Int)) (c n : Nat) :
    ask_gemini_batch B env questions idx0 = Except.ok (lst, c, n) →
    (∀ (i : Nat) (a : Int), lst[i]? = some (some a) →
      1 ≤ a ∧ ∃ mq : MCQ, questions[i]? = some mq ∧ a ≤ (mq.options.length : Int)) ∧
    (∀ answers item, itemWrites questions item = false →
      applyItem questions answers item = answers) := by
  intro h
  constructor
  · unfold ask_gemini_batch at h
    by_cases hk : (_get_api_keys env).isEmpty
    · simp only [hk, if_true, Except.ok.injEq, Prod.mk.injEq] at h
      rw [← h.1]
      exact entriesValid_replicate questions questions.length
    · simp only [hk, if_false] at h
      rcases runRounds_ok_shape B questions (_get_api_keys env) 0 20 idx0 0 lst c n h with
        hrep | ⟨items, hitems⟩
      · rw [hrep]; exact entriesValid_replicate questions questions.length
      · rw [hitems]; exact parseAnswers_entriesValid questions items
  · intro answers item hw
    exact applyItem_of_not_writes questions answers item hw

/-- Witness for C2: a response answering question 1 with option 5 (of 2) and
then option 2 yields slot value 2, in bounds; the out-of-range pair writes
nothing. -/
theorem ask_gemini_batch_entry_bounds_witness :
    (1 ≤ (2 : Int) ∧ ∃ mq : MCQ, [(⟨"radio", "Q", ["a", "b"]⟩ : MCQ)][0]? = some mq ∧
      (2 : Int) ≤ (mq.options.length : Int)) ∧
    applyItem [(⟨"radio", "Q", ["a", "b"]⟩ : MCQ)] [none] ⟨some 1, some 5⟩ = [none] := by
  have h := ask_gemini_batch_entry_bounds
    ⟨fun _ => none, fun _ _ => Outcome.parsed [⟨some 1, some 5⟩, ⟨some 1, some 2⟩]⟩
    "k" [⟨"radio", "Q", ["a", "b"]⟩] 0 [some 2] 0 1 rfl
  exact ⟨h.1 0 2 rfl, h.2 [none] ⟨some 1, some 5⟩ rfl⟩

/-- C10: appending a valid `{q, answer}` pair to a response's item list makes
that pair determine question `q`'s slot, overwriting whatever earlier pairs
(duplicates included) put there, and leaves every other slot as before;
duplicate pairs are never rejected. -/
theorem parseAnswers_last_valid_wins (questions : List MCQ) (items : List RawItem)
    (qv ans : Int) (h1 : 1 ≤ qv) (h2 : qv ≤ (questions.length : Int)) (h3 : 1 ≤ ans)
    (h4 : ans ≤ (((questions.getD (qv - 1).toNat ⟨"", "", []⟩).options.length : Nat) : Int)) :
    parseAnswers questions (items ++ [⟨some qv, some ans⟩]) =
      (parseAnswers questions items).set (qv - 1).toNat (some ans) := by
  unfold parseAnswers
  rw [List.foldl_append]
  simp only [List.foldl_cons, List.foldl_nil]
  unfold applyItem
  simp only []
  rw [if_pos ⟨by omega, by omega, h3, h4⟩]

/-- Witness for C10: two pairs for the same question; the later one wins. -/
theorem parseAnswers_last_valid_wins_witness :
    parseAnswers [(⟨"radio", "Q", ["a", "b", "c"]⟩ : MCQ)]
        ([⟨some 1, some 2⟩] ++ [⟨some 1, some 3⟩]) =
      (parseAnswers [(⟨"radio", "Q", ["a", "b", "c"]⟩ : MCQ)]
        [⟨some 1, some 2⟩]).set ((1 : Int) - 1).toNat (some 3) :=
  parseAnswers_last_valid_wins [⟨"radio", "Q", ["a", "b", "c"]⟩]
    [⟨some 1, some 2⟩] 1 3 (by decide) (by decide) (by decide) (by decide)

/-- C3: a parsed response with at least one valid answer is returned in full
at once — the model loop stops with exactly that one further call, and the
round loop returns its array with the cursor untouched; a parsed response
with zero valid answers is not returned, the loop moving to the next model. -/
theorem ask_gemini_batch_partial_accept (B : Behaviour) (questions : List MCQ)
    (keys : List String) (round mIdx fuel idx calls : Nat) (m : String)
    (ms : List String) (items : List RawItem)
    (hresp : B.respond round mIdx = Outcome.parsed items) :
    ((parseAnswers questions items).any Option.isSome = true →
      runModelsFrom B questions round mIdx (m :: ms) =
        (some (parseAnswers questions items), 1)) ∧
    ((parseAnswers questions items).any Option.isSome = false →
      runModelsFrom B questions round mIdx (m :: ms) =
        ((runModelsFrom B questions round (mIdx + 1) ms).1,
         (runModelsFrom B questions round (mIdx + 1) ms).2 + 1)) ∧
    (∀ (answers : List (Option Int)) (k : Nat), idx < keys.length →
      B.clientError round = none →
      runModelsFrom B questions round 0 geminiModels = (some answers, k) →
      runRounds B questions keys round (fuel + 1) idx calls =
        Except.ok (answers, idx, calls + k)) := by
  refine ⟨?_, ?_, ?_⟩
  · intro hacc
    simp only [runModelsFrom, hresp, hacc, if_true]
  · intro hacc
    simp [runModelsFrom, hresp, hacc]
  · intro answers k hidx hce hm
    rw [runRounds, if_pos hidx, hce, hm]

/-- Witness for C3: a two-question batch whose response validly answers only
question 2 is accepted at the first model with exactly one call, and the
whole call returns `[absent, 1]` with the cursor untouched. -/
theorem ask_gemini_batch_partial_accept_witness :
    runModelsFrom ⟨fun _ => none, fun _ _ => Outcome.parsed [⟨some 2, some 1⟩]⟩
        [(⟨"radio", "Q1", ["a", "b"]⟩ : MCQ), ⟨"radio", "Q2", ["a", "b"]⟩]
        0 0 geminiModels =
      (some (parseAnswers [(⟨"radio", "Q1", ["a", "b"]⟩ : MCQ), ⟨"radio", "Q2", ["a", "b"]⟩]
        [⟨some 2, some 1⟩]), 1) ∧
    runRounds ⟨fun _ => none, fun _ _ => Outcome.parsed [⟨some 2, some 1⟩]⟩
        [(⟨"radio", "Q1", ["a", "b"]⟩ : MCQ), ⟨"radio", "Q2", ["a", "b"]⟩]
        ["k"] 0 (19 + 1) 0 0 =
      Except.ok ([none, some 1], 0, 0 + 1) := by
  have h := ask_gemini_batch_partial_accept
    ⟨fun _ => none, fun _ _ => Outcome.parsed [⟨some 2, some 1⟩]⟩
    [⟨"radio", "Q1", ["a", "b"]⟩, ⟨"radio", "Q2", ["a", "b"]⟩]
    ["k"] 0 0 19 0 0 "gemini-2.5-flash" ["gemini-2.5-flash-lite", "gemini-3-flash-preview"]
    [⟨some 2, some 1⟩] rfl
  exact ⟨h.1 rfl, h.2.2 [none, some 1] 1 (by decide) rfl rfl⟩

/-- The acceptance test applied to one response outcome: a parsed response
whose extracted items fill at least one slot (`src/gemini_client.py` line
82); every other outcome is a failure for that attempt. -/
def accepted (questions : List MCQ) : Outcome → Bool
  | Outcome.parsed items => (parseAnswers questions items).any Option.isSome
  | _ => false

theorem runModelsFrom_none_of_not_accepted (B : Behaviour) (questions : List MCQ)
    (round : Nat) (hfail : ∀ m', accepted questions (B.respond round m') = false) :
    ∀ (ms : List String) (mIdx : Nat),
      (runModelsFrom B questions round mIdx ms).1 = none := by
  intro ms
  induction ms with
  | nil => intro mIdx; simp [runModelsFrom]
  | cons m rest ih =>
    intro mIdx
    cases hr : B.respond round mIdx with
    | emptyResponse => simp only [runModelsFrom, hr]; exact ih (mIdx + 1)
    | decodeError => simp only [runModelsFrom, hr]; exact ih (mIdx + 1)
    | parsed items =>
      have hacc := hfail mIdx
      rw [hr] at hacc
      simp only [accepted] at hacc
      simp only [runModelsFrom, hr, hacc]
      simp only [Bool.false_eq_true, if_false]
      exact ih (mIdx + 1)
    | raised msg =>
      simp only [runModelsFrom, hr]
      by_cases hq : isQuotaError msg
      · rw [if_pos hq]
      · rw [if_neg hq]; exact ih (mIdx + 1)

theorem runModelsFrom_calls_le (B : Behaviour) (questions : List MCQ) (round : Nat) :
    ∀ (ms : List String) (mIdx : Nat),
      (runModelsFrom B questions round mIdx ms).2 ≤ ms.length := by
  intro ms
  induction ms with
  | nil => intro mIdx; simp [runModelsFrom]
  | cons m rest ih =>
    intro mIdx
    cases hr : B.respond round mIdx with
    | emptyResponse =>
      simp only [runModelsFrom, hr, List.length_cons]
      have := ih (mIdx + 1); omega
    | decodeError =>
      simp only [runModelsFrom, hr, List.length_cons]
      have := ih (mIdx + 1); omega
    | parsed items =>
      simp only [runModelsFrom, hr, List.length_cons]
      split
      · simp
      · have := ih (mIdx + 1); simp; omega
    | raised msg =>
      simp only [runModelsFrom, hr, List.length_cons]
      split
      · simp
      · have := ih (mIdx + 1); simp; omega

theorem runRounds_all_fail (B : Behaviour) (questions : List MCQ) (keys : List String)
    (hclient : ∀ r, B.clientError r = none)
    (hfail : ∀ r m', accepted questions (B.respond r m') = false) :
    ∀ (fuel round idx calls : Nat), idx < keys.length →
      ∃ c n, runRounds B questions keys round fuel idx calls =
          Except.ok (List.replicate questions.length none, c, n) ∧ n ≤ calls + 3 * fuel := by
  intro fuel
  induction fuel with
  | zero =>
    intro round idx calls hidx
    exact ⟨idx, calls, by rw [runRounds], by omega⟩
  | succ fuel ih =>
    intro round idx calls hidx
    have hnone := runModelsFrom_none_of_not_accepted B questions round (hfail round)
      geminiModels 0
    cases hm : runModelsFrom B questions round 0 geminiModels with
    | mk res cnt =>
      rw [hm] at hnone
      simp only [] at hnone
      subst hnone
      have hcnt : cnt ≤ 3 := by
        have h3 := runModelsFrom_calls_le B questions round geminiModels 0
        rw [hm] at h3
        simpa [geminiModels] using h3
      have hidx' : (idx + 1) % keys.length < keys.length := Nat.mod_lt _ (by omega)
      obtain ⟨c, n, heq, hle⟩ := ih (round + 1) ((idx + 1) % keys.length) (calls + cnt) hidx'
      refine ⟨c, n, ?_, by omega⟩
      simp only [runRounds, if_pos hidx, hclient round, hm]
      exact heq

/-- C8: when no credential/model attempt ever produces an accepted response
(and the client constructor never raises), `ask_gemini_batch` terminates
within its 20 outer rounds — at most 60 service calls — and returns the
all-absent array of the input's length. -/
theorem ask_gemini_batch_round_bound (B : Behaviour) (env : String)
    (questions : List MCQ) (idx0 : Nat)
    (hidx : idx0 < (_get_api_keys env).length)
    (hclient : ∀ r, B.clientError r = none)
    (hfail : ∀ r m', accepted questions (B.respond r m') = false) :
    ∃ c n, ask_gemini_batch B env questions idx0 =
        Except.ok (List.replicate questions.length none, c, n) ∧ n ≤ 60 := by
  obtain ⟨c, n, heq, hle⟩ :=
    runRounds_all_fail B questions (_get_api_keys env) hclient hfail 20 0 idx0 0 hidx
  refine ⟨c, n, ?_, by omega⟩
  unfold ask_gemini_batch
  rw [if_neg ?_]
  · exact heq
  · intro hk
    rw [List.isEmpty_iff] at hk
    rw [hk] at hidx
    simp at hidx

/-- Witness for C8: one key, one question, every response empty: the call
returns the all-absent one-slot array within the round budget. -/
theorem ask_gemini_batch_round_bound_witness :
    ∃ c n, ask_gemini_batch ⟨fun _ => none, fun _ _ => Outcome.emptyResponse⟩ "k"
        [(⟨"radio", "Q", ["a", "b"]⟩ : MCQ)] 0 =
        Except.ok (List.replicate 1 none, c, n) ∧ n ≤ 60 :=
  ask_gemini_batch_round_bound ⟨fun _ => none, fun _ _ => Outcome.emptyResponse⟩ "k"
    [⟨"radio", "Q", ["a", "b"]⟩] 0 (by decide) (fun _ => rfl) (fun _ _ => rfl)

theorem runRounds_no_raise (B : Behaviour) (questions : List MCQ) (keys : List String)
    (hclient : ∀ r, B.clientError r = none) :
    ∀ (fuel round idx calls : Nat), idx < keys.length →
      ∃ lst c n, runRounds B questions keys round fuel idx calls =
        Except.ok (lst, c, n) := by
  intro fuel
  induction fuel with
  | zero =>
    intro round idx calls hidx
    exact ⟨List.replicate questions.length none, idx, calls, by rw [runRounds]⟩
  | succ fuel ih =>
    intro round idx calls hidx
    cases hm : runModelsFrom B questions round 0 geminiModels with
    | mk res cnt =>
      cases res with
      | some answers =>
        exact ⟨answers, idx, calls + cnt,
          by simp only [runRounds, if_pos hidx, hclient round, hm]⟩
      | none =>
        have hidx' : (idx + 1) % keys.length < keys.length := Nat.mod_lt _ (by omega)
        obtain ⟨lst, c, n, heq⟩ := ih (round + 1) ((idx + 1) % keys.length) (calls + cnt) hidx'
        exact ⟨lst, c, n, by simp only [runRounds, if_pos hidx, hclient round, hm]; exact heq⟩

/-- C4 counterexample: when `genai.Client(...)` raises in the first round,
the exception propagates out of `ask_gemini_batch` (the construction at
`src/gemini_client.py` line 56 sits outside the `try` block), so there is a
service behaviour under which the call returns no array at all. -/
theorem ask_gemini_batch_raises_counterexample :
    ask_gemini_batch ⟨fun _ => some "boom", fun _ _ => Outcome.emptyResponse⟩ "k"
        [(⟨"radio", "Q", ["a", "b"]⟩ : MCQ)] 0 = Except.error "boom" ∧
    ¬ ∃ (lst : List (Option Int)) (c n : Nat),
      ask_gemini_batch ⟨fun _ => some "boom", fun _ _ => Outcome.emptyResponse⟩ "k"
        [(⟨"radio", "Q", ["a", "b"]⟩ : MCQ)] 0 = Except.ok (lst, c, n) := by
  refine ⟨rfl, ?_⟩
  rintro ⟨lst, c, n, h⟩
  have e : ask_gemini_batch ⟨fun _ => some "boom", fun _ _ => Outcome.emptyResponse⟩ "k"
      [(⟨"radio", "Q", ["a", "b"]⟩ : MCQ)] 0 = Except.error "boom" := rfl
  exact Except.noConfusion (e.symm.trans h)

/-- C4 amended: provided the client constructor never raises and the stored
rotation cursor is within the parsed credential list's bounds (or that list
is empty), `ask_gemini_batch` propagates no exception: every such call
returns a result array.  (Errors raised by the request itself, by response
field access, or by parsing are all caught inside the loop.) -/
theorem ask_gemini_batch_no_raise (B : Behaviour) (env : String)
    (questions : List MCQ) (idx0 : Nat)
    (hclient : ∀ r, B.clientError r = none)
    (hidx : _get_api_keys env = [] ∨ idx0 < (_get_api_keys env).length) :
    ∃ lst c n, ask_gemini_batch B env questions idx0 = Except.ok (lst, c, n) := by
  unfold ask_gemini_batch
  cases hidx with
  | inl hnil =>
    exact ⟨List.replicate questions.length none, idx0, 0,
      by rw [if_pos (List.isEmpty_iff.mpr hnil)]⟩
  | inr hlt =>
    rw [if_neg ?_]
    · exact runRounds_no_raise B questions (_get_api_keys env) hclient 20 0 idx0 0 hlt
    · intro hk
      rw [List.isEmpty_iff] at hk
      rw [hk] at hlt
      simp at hlt

/-- Witness for C4 (amended): a benign behaviour returns normally. -/
theorem ask_gemini_batch_no_raise_witness :
    ∃ lst c n, ask_gemini_batch ⟨fun _ => none, fun _ _ => Outcome.emptyResponse⟩ "k"
        [(⟨"radio", "Q", ["a", "b"]⟩ : MCQ)] 0 = Except.ok (lst, c, n) :=
  ask_gemini_batch_no_raise ⟨fun _ => none, fun _ _ => Outcome.emptyResponse⟩ "k"
    [⟨"radio", "Q", ["a", "b"]⟩] 0 (fun _ => rfl) (Or.inr (by decide))

theorem accepted_nil (o : Outcome) : accepted ([] : List MCQ) o = false := by
  cases o with
  | parsed items =>
    have hlen := parseAnswers_length [] items
    simp only [List.length_nil] at hlen
    rw [accepted, List.eq_nil_of_length_eq_zero hlen]
    rfl
  | emptyResponse => rfl
  | decodeError => rfl
  | raised msg => rfl

theorem runModelsFrom_calls_pos (B : Behaviour) (questions : List MCQ)
    (round mIdx : Nat) (ms : List String) (hms : ms ≠ []) :
    1 ≤ (runModelsFrom B questions round mIdx ms).2 := by
  cases ms with
  | nil => exact absurd rfl hms
  | cons m rest =>
    cases hr : B.respond round mIdx with
    | emptyResponse => simp [runModelsFrom, hr]
    | decodeError => simp [runModelsFrom, hr]
    | parsed items =>
      simp only [runModelsFrom, hr]
      split <;> simp
    | raised msg =>
      simp only [runModelsFrom, hr]
      split <;> simp

theorem runRounds_empty_questions (B : Behaviour) (keys : List String)
    (hclient : ∀ r, B.clientError r = none) :
    ∀ (fuel round idx calls : Nat), idx < keys.length →
    ∀ (lst : List (Option Int)) (c n : Nat),
      runRounds B [] keys round fuel idx calls = Except.ok (lst, c, n) →
      lst = [] ∧ calls + fuel ≤ n := by
  intro fuel
  induction fuel with
  | zero =>
    intro round idx calls hidx lst c n h
    rw [runRounds] at h
    simp only [Except.ok.injEq, Prod.mk.injEq] at h
    refine ⟨by rw [← h.1]; rfl, by omega⟩
  | succ fuel ih =>
    intro round idx calls hidx lst c n h
    cases hm : runModelsFrom B [] round 0 geminiModels with
    | mk res cnt =>
      have hres : res = none := by
        have hn := runModelsFrom_none_of_not_accepted B [] round
          (fun m' => accepted_nil _) geminiModels 0
        rw [hm] at hn
        exact hn
      subst hres
      have hcnt : 1 ≤ cnt := by
        have hp := runModelsFrom_calls_pos B [] round 0 geminiModels
          (by rw [geminiModels]; simp)
        rw [hm] at hp
        exact hp
      simp only [runRounds, if_pos hidx, hclient round, hm] at h
      have hidx' : (idx + 1) % keys.length < keys.length := Nat.mod_lt _ (by omega)
      obtain ⟨h1, h2⟩ := ih (round + 1) ((idx + 1) % keys.length) (calls + cnt) hidx' lst c n h
      exact ⟨h1, by omega⟩

/-- C5 counterexample: with an empty question batch and one credential, the
call still issues 60 network requests (20 rounds × 3 models) before
returning the empty array — there is no empty-batch short-circuit and no
"no I/O" guarantee in the code. -/
theorem ask_gemini_batch_empty_io_counterexample :
    ask_gemini_batch ⟨fun _ => none, fun _ _ => Outcome.emptyResponse⟩ "k" [] 0 =
      Except.ok ([], 0, 60) ∧ (60 : Nat) ≠ 0 :=
  ⟨rfl, by decide⟩

/-- C5 amended: with an empty question batch (non-empty credentials, benign
client constructor, cursor in bounds), every normal return still yields the
empty result array, but only after performing network I/O: no response can
ever be accepted for an empty batch, so all 20 rounds run, making at least
20 service calls before the empty array is returned. -/
theorem ask_gemini_batch_empty_batch (B : Behaviour) (env : String) (idx0 : Nat)
    (lst : List (Option Int)) (c n : Nat)
    (hclient : ∀ r, B.clientError r = none)
    (hidx : idx0 < (_get_api_keys env).length)
    (h : ask_gemini_batch B env [] idx0 = Except.ok (lst, c, n)) :
    lst = [] ∧ 20 ≤ n := by
  unfold ask_gemini_batch at h
  rw [if_neg ?_] at h
  · obtain ⟨h1, h2⟩ :=
      runRounds_empty_questions B (_get_api_keys env) hclient 20 0 idx0 0 hidx lst c n h
    exact ⟨h1, by omega⟩
  · intro hk
    rw [List.isEmpty_iff] at hk
    rw [hk] at hidx
    simp at hidx

/-- Witness for C5 (amended), at the counterexample's input: the returned
array is empty and 60 calls were made. -/
theorem ask_gemini_batch_empty_batch_witness :
    ([] : List (Option Int)) = [] ∧ 20 ≤ 60 :=
  ask_gemini_batch_empty_batch ⟨fun _ => none, fun _ _ => Outcome.emptyResponse⟩ "k" 0
    [] 0 60 (fun _ => rfl) (by decide) rfl

theorem runRounds_all_fail_cursor (B : Behaviour) (questions : List MCQ)
    (keys : List String) (hclient : ∀ r, B.clientError r = none)
    (hfail : ∀ r, (runModelsFrom B questions r 0 geminiModels).1 = none) :
    ∀ (fuel round idx calls : Nat), idx < keys.length →
      ∃ nn, runRounds B questions keys round fuel idx calls =
        Except.ok (List.replicate questions.length none,
          (idx + fuel) % keys.length, nn) := by
  intro fuel
  induction fuel with
  | zero =>
    intro round idx calls hidx
    refine ⟨calls, ?_⟩
    rw [runRounds, Nat.add_zero, Nat.mod_eq_of_lt hidx]
  | succ fuel ih =>
    intro round idx calls hidx
    cases hm : runModelsFrom B questions round 0 geminiModels with
    | mk res cnt =>
      have hres : res = none := by
        have hn := hfail round
        rw [hm] at hn
        exact hn
      subst hres
      have hidx' : (idx + 1) % keys.length < keys.length := Nat.mod_lt _ (by omega)
      obtain ⟨nn, heq⟩ := ih (round + 1) ((idx + 1) % keys.length) (calls + cnt) hidx'
      have harg : ((idx + 1) % keys.length + fuel) % keys.length =
          (idx + (fuel + 1)) % keys.length := by
        rw [Nat.mod_add_mod]
        congr 1
        omega
      rw [harg] at heq
      refine ⟨nn, ?_⟩
      simp only [runRounds, if_pos hidx, hclient round, hm]
      exact heq

/-- C6 counterexample: a behaviour with no quota-exhaustion signal anywhere
(every outcome is an empty response or a parsed success, never an exception)
in which round 0 fails softly and round 1 succeeds: the process-wide cursor
still moves from 0 to 1, refuting "mutated only after a failed attempt that
indicates exhausted quota", since the advance at `src/gemini_client.py`
lines 92-93 runs after every round that returns nothing. -/
theorem current_api_key_idx_counterexample :
    ask_gemini_batch
        ⟨fun _ => none,
         fun r m => if r = 0 then Outcome.emptyResponse
           else if m = 0 then Outcome.parsed [⟨some 1, some 1⟩]
           else Outcome.emptyResponse⟩
        "a,b" [(⟨"radio", "Q", ["a", "b"]⟩ : MCQ)] 0 =
      Except.ok ([some 1], 1, 4) ∧ (1 : Nat) ≠ 0 :=
  ⟨rfl, by decide⟩

/-- C6 amended: the rotation cursor advances by exactly one position modulo
the credential count after every outer round that exhausts its models
without an accepted response — whether or not any quota signal occurred —
and a round that returns an accepted response leaves the cursor at the value
the preceding failed rounds gave it; when every round fails, a run of `f`
rounds ends with the cursor at `(start + f) mod keyCount`. -/
theorem current_api_key_idx_advance (B : Behaviour) (questions : List MCQ)
    (keys : List String) (round fuel idx calls : Nat)
    (hidx : idx < keys.length) (hclient : B.clientError round = none) :
    (∀ k, runModelsFrom B questions round 0 geminiModels = (none, k) →
      runRounds B questions keys round (fuel + 1) idx calls =
        runRounds B questions keys (round + 1) fuel
          ((idx + 1) % keys.length) (calls + k)) ∧
    (∀ (answers : List (Option Int)) (k : Nat),
      runModelsFrom B questions round 0 geminiModels = (some answers, k) →
      runRounds B questions keys round (fuel + 1) idx calls =
        Except.ok (answers, idx, calls + k)) ∧
    ((∀ r, B.clientError r = none) →
      (∀ r, (runModelsFrom B questions r 0 geminiModels).1 = none) →
      ∃ nn, runRounds B questions keys round fuel idx calls =
        Except.ok (List.replicate questions.length none,
          (idx + fuel) % keys.length, nn)) := by
  refine ⟨?_, ?_, ?_⟩
  · intro k hm
    simp only [runRounds, if_pos hidx, hclient, hm]
  · intro answers k hm
    simp only [runRounds, if_pos hidx, hclient, hm]
  · intro hc hf
    exact runRounds_all_fail_cursor B questions keys hc hf fuel round idx calls hidx

/-- Witness for C6 (amended) at concrete inputs: with two keys and an
all-soft-failing behaviour, the failed round rewrites the cursor 0 to
(0+1) mod 2, and a one-round run ends with the cursor there. -/
theorem current_api_key_idx_advance_witness :
    (runRounds ⟨fun _ => none, fun _ _ => Outcome.emptyResponse⟩
        [(⟨"radio", "Q", ["a", "b"]⟩ : MCQ)] ["a", "b"] 0 (1 + 1) 0 0 =
      runRounds ⟨fun _ => none, fun _ _ => Outcome.emptyResponse⟩
        [(⟨"radio", "Q", ["a", "b"]⟩ : MCQ)] ["a", "b"] 1 1 ((0 + 1) % 2) (0 + 3)) ∧
    ∃ nn, runRounds ⟨fun _ => none, fun _ _ => Outcome.emptyResponse⟩
        [(⟨"radio", "Q", ["a", "b"]⟩ : MCQ)] ["a", "b"] 0 1 0 0 =
      Except.ok (List.replicate 1 none, (0 + 1) % 2, nn) := by
  have h := current_api_key_idx_advance ⟨fun _ => none, fun _ _ => Outcome.emptyResponse⟩
    [⟨"radio", "Q", ["a", "b"]⟩] ["a", "b"] 0 1 0 0 (by decide) rfl
  exact ⟨h.1 3 rfl, h.2.2 (fun _ => rfl) (fun _ => rfl)⟩

/-- C9, spec side, for the refinement comparison.  Modelled from the spec:
"entries are trimmed of surrounding whitespace and quote characters" — one
strip of the combined character class from both ends. -/
def specTrimEntry (s : String) : String :=
  pyStrip (fun c => isPyWs c || c = '"' || c = '\'') s

/-- C9, spec side: split on commas, trim per the spec's words, discard
entries that are empty after trimming. -/
def spec_get_api_keys (geminiApiKeysEnv : String) : List String :=
  (pySplitComma geminiApiKeysEnv).filterMap
    (fun e => let t := specTrimEntry e; if t = "" then none else some t)

/-- C9 counterexample: on the entry `'"x"'` (a double-quoted name nested in
single quotes) the code keeps the double quotes — its three strips run in
the fixed order whitespace, `"`, `'`, so the inner quotes survive — while
trimming "surrounding whitespace and quote characters" yields bare `x`. -/
theorem get_api_keys_counterexample :
    _get_api_keys "\x27\x22x\x22\x27" = ["\x22x\x22"] ∧
    spec_get_api_keys "\x27\x22x\x22\x27" = ["x"] ∧
    _get_api_keys "\x27\x22x\x22\x27" ≠ spec_get_api_keys "\x27\x22x\x22\x27" := by
  refine ⟨rfl, rfl, ?_⟩
  decide

theorem coerce_filter_entry (e : String) :
    (fun k => if pyTruthy k then k else none) (_coerce_api_key e) =
      (let t := pyStrip (fun c => c = '\'')
        (pyStrip (fun c => c = '"') (pyStrip isPyWs e))
       if t = "" then none else some t) := by
  by_cases he : e = ""
  · subst he
    rfl
  · simp only [_coerce_api_key, if_neg he]
    by_cases ht : pyStrip (fun c => c = '\'')
        (pyStrip (fun c => c = '"') (pyStrip isPyWs e)) = ""
    · simp only [ht, pyTruthy]
      rfl
    · simp only [ht, pyTruthy]
      simp [ht]

/-- C9 amended: the credential list equals the split-on-comma entries,
each trimmed of surrounding whitespace, then of surrounding double-quote
characters, then of surrounding single-quote characters — in that fixed
order, so mixed quote/whitespace nestings keep their inner residue — with
entries empty after this trimming discarded, order preserved. -/
theorem get_api_keys_amended (geminiApiKeysEnv : String) :
    _get_api_keys geminiApiKeysEnv = (pySplitComma geminiApiKeysEnv).filterMap
      (fun e =>
        let t := pyStrip (fun c => c = '\'')
          (pyStrip (fun c => c = '"') (pyStrip isPyWs e))
        if t = "" then none else some t) := by
  unfold _get_api_keys
  rw [List.filterMap_map]
  congr 1
  funext e
  simp only [Function.comp]
  exact coerce_filter_entry e
